import Mathlib

/-!
Shallow embedding of the `easy-error` crate (src/lib.rs, src/terminator.rs).

A `dyn error::Error` value is observable only through its `Display` string
and its optional `source` link, so it is modelled by the inductive
`DynError`.  The crate's `Error` struct, the `Causes` iterator (with
explicit state passing in place of `&mut self`), the `ResultExt`
context-attachment methods (over `Except`), and the `Terminator` debug
formatter (a string accumulator in place of `fmt::Formatter`) are
translated directly from the source.
-/

namespace EasyError

/-- A type-erased error value: a display string plus an optional source
link (the capability surface of `dyn error::Error + 'static`).  Ownership
of causes is a strict tree in the crate, so the chain is acyclic by
construction, which the inductive captures. -/
inductive DynError : Type where
  | base (d : String) : DynError
  | cons (d : String) (src : DynError) : DynError
deriving DecidableEq, Repr

/-- The `Display` string of a type-erased error. -/
def DynError.display : DynError → String
  | .base d => d
  | .cons d _ => d

/-- `error::Error::source`: the optional next error in the chain. -/
def DynError.source : DynError → Option DynError
  | .base _ => none
  | .cons _ s => some s

/-- The full source chain starting at (and including) the given error,
obtained by following `source` links until they run out. -/
def DynError.chainList : DynError → List DynError
  | .base d => [.base d]
  | .cons d s => .cons d s :: s.chainList

/-- `std::panic::Location`: the call site captured by `#[track_caller]`. -/
structure Location : Type where
  file : String
  line : Nat
  col : Nat
deriving DecidableEq, Repr

/-- `Display` for `Location`: `file:line:column`. -/
def Location.display (l : Location) : String :=
  l.file ++ ":" ++ toString l.line ++ ":" ++ toString l.col

/-- `easy_error::Error`: a human-targetted context string, the captured
call-site location, and an optional boxed cause. -/
structure Error : Type where
  ctx : String
  location : Location
  cause : Option DynError
deriving DecidableEq, Repr

/-- `Error::new(ctx, cause)`.  `ctx.to_string()` is modelled by taking the
already-stringified context; the `#[track_caller]` location is an explicit
argument; `Some(Box::new(cause))` is the type-erased cause. -/
def Error.new (ctx : String) (location : Location) (cause : DynError) : Error :=
  { ctx := ctx, location := location, cause := some cause }

/-- `Display for Error`: `write!(f, "{} ({})", self.ctx, self.location)`. -/
def Error.display (e : Error) : String :=
  e.ctx ++ " (" ++ e.location.display ++ ")"

/-- `error::Error::source for Error`:
`self.cause.as_ref().map(|c| &**c as _)`. -/
def Error.source (e : Error) : Option DynError :=
  e.cause

/-- Type erasure of an `Error` into `dyn error::Error`: only its display
string and its source link remain observable. -/
def Error.toDyn (e : Error) : DynError :=
  match e.cause with
  | none => .base e.display
  | some c => .cons e.display c

/-- `err_msg(ctx)`: an `Error` with the given context and no cause. -/
def err_msg (ctx : String) (location : Location) : Error :=
  { ctx := ctx, location := location, cause := none }

/-- `ResultExt::context(self, ctx)`:
`self.map_err(|e| Error { ctx: ctx.to_string(), location, cause: Some(Box::new(e)) })`. -/
def context {T : Type} (r : Except DynError T) (ctx : String) (location : Location) :
    Except Error T :=
  r.mapError (fun e => { ctx := ctx, location := location, cause := some e })

/-- `ResultExt::with_context(self, ctx_fn)`:
`self.map_err(|e| Error { ctx: ctx_fn().to_string(), location, cause: Some(Box::new(e)) })`. -/
def with_context {T : Type} (r : Except DynError T) (ctx_fn : Unit → String)
    (location : Location) : Except Error T :=
  r.mapError (fun e => { ctx := ctx_fn (), location := location, cause := some e })

/-- The `Causes` iterator: holds the next cause to yield. -/
structure Causes : Type where
  cause : Option DynError
deriving DecidableEq, Repr

/-- `Iterator::next for Causes`: `let cause = self.cause.take();
self.cause = cause.and_then(error::Error::source); cause` — returns the
yielded item together with the updated iterator state. -/
def Causes.next (c : Causes) : Option DynError × Causes :=
  let cause := c.cause
  (cause, ⟨cause.bind DynError.source⟩)

/-- `Iterator::nth(n)`: advance `n + 1` times, return the last item. -/
def Causes.nth (c : Causes) : Nat → Option DynError
  | 0 => c.next.1
  | n + 1 => c.next.2.nth n

/-- Call `next` a fixed number of times, collecting each returned item and
the final iterator state. -/
def Causes.takeN (c : Causes) : Nat → List (Option DynError) × Causes
  | 0 => ([], c)
  | n + 1 =>
    let p := c.next
    let q := p.2.takeN n
    (p.1 :: q.1, q.2)

/-- Every item the iterator will ever yield, in order (the complete trace
of `next` calls, justified by `Causes.next_toList`). -/
def Causes.toList (c : Causes) : List DynError :=
  match c.cause with
  | none => []
  | some e => e.chainList

/-- `Iterator::last`: the final item yielded before exhaustion. -/
def Causes.last (c : Causes) : Option DynError :=
  c.toList.getLast?

/-- `ErrorExt::iter_chain`: `Causes { cause: Some(self) }`. -/
def iter_chain (e : DynError) : Causes :=
  ⟨some e⟩

/-- `ErrorExt::iter_causes`: `Causes { cause: self.iter_chain().nth(1) }`. -/
def iter_causes (e : DynError) : Causes :=
  ⟨(iter_chain e).nth 1⟩

/-- `ErrorExt::find_root_cause`: `self.iter_chain().last()`, with the
`expect` modelled by returning the `Option` it unwraps. -/
def find_root_cause (e : DynError) : Option DynError :=
  (iter_chain e).last

/-- `Terminator`: wraps a type-erased inner error. -/
structure Terminator : Type where
  inner : DynError
deriving DecidableEq, Repr

/-- `From<E> for Terminator`: `Terminator { inner: Box::new(err) }`. -/
def Terminator.ofErr (e : DynError) : Terminator :=
  ⟨e⟩

/-- `writeln!(f, "{}", s)` on a string-accumulator formatter. -/
def writelnStr (acc s : String) : String :=
  acc ++ s ++ "\n"

/-- `Debug for Terminator`: `writeln!(f, "{}", self.inner)` followed by
`writeln!(f, "Caused by: {}", cause)` for each cause of the inner error. -/
def Terminator.fmt (t : Terminator) : String :=
  (iter_causes t.inner).toList.foldl
    (fun acc c => writelnStr acc ("Caused by: " ++ c.display))
    (writelnStr "" t.inner.display)

/-! ### Shared lemmas about the cause iterator -/

/-- The chain of an error starts with the error itself and continues with
the chain of its source. -/
theorem DynError.chainList_eq (e : DynError) :
    e.chainList = e :: Causes.toList ⟨e.source⟩ := by
  cases e <;> rfl

/-- `Causes.toList` is the exact trace of `next` calls: one `next` yields
the head of `toList` and leaves an iterator whose `toList` is the tail. -/
theorem Causes.next_toList (c : Causes) :
    c.next.1 = c.toList.head? ∧ c.next.2.toList = c.toList.tail := by
  obtain ⟨cause⟩ := c
  cases cause with
  | none => exact ⟨rfl, rfl⟩
  | some e => cases e <;> exact ⟨by simp [Causes.next, Causes.toList, DynError.chainList], rfl⟩

/-- An exhausted iterator keeps yielding `none`. -/
theorem Causes.takeN_none (k : Nat) :
    (Causes.takeN ⟨none⟩ k) = (List.replicate k none, ⟨none⟩) := by
  induction k with
  | zero => rfl
  | succ n ih => simp [Causes.takeN, Causes.next, ih, List.replicate_succ]

/-- Running the iterator for exactly the chain's length yields every chain
element in order and leaves the iterator exhausted. -/
theorem Causes.takeN_full (e : DynError) :
    (Causes.takeN ⟨some e⟩ e.chainList.length) = (e.chainList.map some, ⟨none⟩) := by
  induction e with
  | base d => rfl
  | cons d s ih =>
      have h1 : (⟨some (DynError.cons d s)⟩ : Causes).next = (some (.cons d s), ⟨some s⟩) := rfl
      simp [DynError.chainList, Causes.takeN, h1, ih]

/-- Successive chain elements are linked by `source`. -/
theorem DynError.chain_source (e : DynError) :
    List.Chain' (fun a b => a.source = some b) e.chainList := by
  induction e with
  | base d => simp [DynError.chainList]
  | cons d s ih =>
      refine List.Chain'.cons' ih ?_
      intro y hy
      cases s <;> simp_all [DynError.chainList, DynError.source]

/-- The last element of a chain exists and has no source. -/
theorem DynError.chainList_getLast (e : DynError) :
    ∃ r, e.chainList.getLast? = some r ∧ r.source = none := by
  induction e with
  | base d => exact ⟨.base d, rfl, rfl⟩
  | cons d s ih =>
      obtain ⟨r, hr, hs⟩ := ih
      refine ⟨r, ?_, hs⟩
      rw [DynError.chainList, List.getLast?_cons, hr]
      cases s <;> simp_all [DynError.chainList]

/-- `iter_causes` starts at the immediate source of the given error. -/
theorem iter_causes_eq (e : DynError) : iter_causes e = ⟨e.source⟩ := rfl

/-- The items `iter_causes` yields are the chain minus the error itself. -/
theorem iter_causes_toList (e : DynError) :
    (iter_causes e).toList = e.chainList.drop 1 := by
  cases e <;> rfl

/-- String append is associative. -/
theorem strAppend_assoc (a b c : String) : a ++ b ++ c = a ++ (b ++ c) := by
  apply String.ext
  simp

/-- The empty string is a left identity for append. -/
theorem strEmpty_append (s : String) : "" ++ s = s := by
  apply String.ext
  simp

/-- Joining an extra string at the front prepends it. -/
theorem strJoin_cons (a : String) (l : List String) :
    String.join (a :: l) = a ++ String.join l := by
  apply String.ext
  simp [String.join_eq]

/-- Folding the `Caused by:` write-loop over a list of causes appends one
line per cause to the accumulator. -/
theorem foldl_writeln (l : List DynError) (acc : String) :
    l.foldl (fun acc c => writelnStr acc ("Caused by: " ++ c.display)) acc
      = acc ++ String.join (l.map (fun c => "Caused by: " ++ c.display ++ "\n")) := by
  induction l generalizing acc with
  | nil =>
      apply String.ext
      simp [String.join]
  | cons x xs ih =>
      rw [List.foldl_cons, ih]
      simp only [List.map_cons, strJoin_cons, writelnStr, strAppend_assoc]

/-! ### Claim theorems -/

/-- Claim C1: for every hand-built cause chain of depth `N` (every
`DynError` is such a chain, `N` being its chain length), `iter_chain`
yields exactly the `N` chain elements — the error itself first, then each
successive source, most-recent to root — and is then exhausted, while
`iter_causes` yields exactly the `N - 1` elements after the error itself
and is then exhausted. -/
theorem iter_chain_iter_causes_yields (e : DynError) :
    ((iter_chain e).takeN e.chainList.length).1 = e.chainList.map some
    ∧ ((iter_chain e).takeN e.chainList.length).2.next.1 = none
    ∧ e.chainList.head? = some e
    ∧ List.Chain' (fun a b => a.source = some b) e.chainList
    ∧ 1 ≤ e.chainList.length
    ∧ ((iter_causes e).takeN (e.chainList.length - 1)).1 = (e.chainList.drop 1).map some
    ∧ ((iter_causes e).takeN (e.chainList.length - 1)).2.next.1 = none := by
  have hfull := Causes.takeN_full e
  refine ⟨by rw [iter_chain, hfull], by rw [iter_chain, hfull]; rfl, ?_, e.chain_source, ?_, ?_, ?_⟩
  · cases e <;> rfl
  · cases e <;> simp [DynError.chainList]
  · cases e with
    | base d => rfl
    | cons d s =>
        have : (DynError.cons d s).chainList.length - 1 = s.chainList.length := by
          simp [DynError.chainList]
        rw [this, iter_causes_eq]
        show (Causes.takeN ⟨some s⟩ s.chainList.length).1 = _
        rw [Causes.takeN_full s]
        rfl
  · cases e with
    | base d => rfl
    | cons d s =>
        have : (DynError.cons d s).chainList.length - 1 = s.chainList.length := by
          simp [DynError.chainList]
        rw [this, iter_causes_eq]
        show ((Causes.takeN ⟨some s⟩ s.chainList.length).2.next).1 = none
        rw [Causes.takeN_full s]
        rfl

/-- Claim C2: `context` passes a success through unchanged, and turns a
failure carrying `e` into a failure carrying an `Error` whose context is
the (stringified) context value and whose cause is exactly `e`. -/
theorem context_spec (T : Type) (v : T) (ctx : String) (loc : Location) (e : DynError) :
    context (Except.ok v) ctx loc = Except.ok v
    ∧ context (T := T) (Except.error e) ctx loc
        = Except.error { ctx := ctx, location := loc, cause := some e } := by
  exact ⟨rfl, rfl⟩

/-- Claim C5: displaying an `Error` yields exactly its context string
suffixed with `" (<location>)"`, and the rendering is independent of the
cause — no text from the cause ever appears. -/
theorem error_display_spec (e : Error) :
    Error.display e = e.ctx ++ " (" ++ e.location.display ++ ")"
    ∧ ∀ c : Option DynError, Error.display { e with cause := c } = Error.display e := by
  exact ⟨rfl, fun _ => rfl⟩

/-- Claim C6: `Error::new(ctx, cause)` produces an error whose display is
the stringified context (plus the location suffix) and whose `source` is
exactly the given cause. -/
theorem error_new_spec (ctx : String) (loc : Location) (cause : DynError) :
    (Error.new ctx loc cause).display = ctx ++ " (" ++ loc.display ++ ")"
    ∧ (Error.new ctx loc cause).source = some cause := by
  exact ⟨rfl, rfl⟩

/-- Claim C7: on a success, `with_context` returns the success unchanged
and the outcome does not depend on the context function — the pure-model
statement that the function is only invoked on the failure path. -/
theorem with_context_lazy (T : Type) (v : T) (f g : Unit → String) (loc : Location) :
    with_context (Except.ok v) f loc = Except.ok v
    ∧ with_context (Except.ok v) f loc = with_context (Except.ok v) g loc := by
  exact ⟨rfl, rfl⟩

/-- Claim C8: once `next` has returned `none`, every later call returns
`none` as well — exhaustion is permanent. -/
theorem causes_exhaustion_permanent (c : Causes) (h : c.next.1 = none) (k : Nat) :
    (c.takeN k).1 = List.replicate k none ∧ (c.takeN k).2.next.1 = none := by
  have hc : c = ⟨none⟩ := by
    obtain ⟨cause⟩ := c
    simp only [Causes.next] at h
    simp [h]
  subst hc
  rw [Causes.takeN_none]
  exact ⟨rfl, rfl⟩

/-- Witness for C8 at the concrete exhausted iterator and three further calls. -/
theorem causes_exhaustion_permanent_witness :
    ((Causes.mk none).takeN 3).1 = List.replicate 3 none
    ∧ ((Causes.mk none).takeN 3).2.next.1 = none :=
  causes_exhaustion_permanent ⟨none⟩ rfl 3

/-- Claim C9: `err_msg(ctx)` builds an `Error` with no cause: its `source`
is `none` (also after type erasure), a chain terminus. -/
theorem err_msg_no_cause (ctx : String) (loc : Location) :
    (err_msg ctx loc).source = none ∧ (err_msg ctx loc).toDyn.source = none := by
  exact ⟨rfl, rfl⟩

/-- Claim C3: the debug rendering of a `Terminator` wrapping an error `d`
whose cause chain (excluding `d`) has `K` entries is the join of exactly
`1 + K` newline-terminated lines: first `d`'s display string, then one
`"Caused by: "`-prefixed display per cause, ordered most-recent cause to
root (successive entries linked by `source`). -/
theorem terminator_fmt_lines (d : DynError) :
    Terminator.fmt (Terminator.ofErr d) =
      String.join ((d.display :: (iter_causes d).toList.map
        (fun c => "Caused by: " ++ c.display)).map (fun s => s ++ "\n"))
    ∧ (d.display :: (iter_causes d).toList.map
        (fun c => "Caused by: " ++ c.display)).length = 1 + (iter_causes d).toList.length
    ∧ (iter_causes d).toList = d.chainList.drop 1
    ∧ List.Chain' (fun a b => a.source = some b) (d :: (iter_causes d).toList) := by
  refine ⟨?_, by simp [Nat.add_comm], iter_causes_toList d, ?_⟩
  · show (iter_causes d).toList.foldl
        (fun acc c => writelnStr acc ("Caused by: " ++ c.display)) (writelnStr "" d.display) = _
    rw [foldl_writeln, List.map_cons, strJoin_cons, List.map_map]
    simp only [writelnStr, strEmpty_append, strAppend_assoc, Function.comp_def]
  · have h : d :: (iter_causes d).toList = d.chainList := by cases d <;> rfl
    rw [h]
    exact d.chain_source

/-- Claim C4 as stated is false: the single rendered line carries the
call-site location suffix, so at the concrete location `main.rs:3:5` the
rendering is not the bare message plus newline. -/
theorem terminator_err_msg_cex :
    Terminator.fmt (Terminator.ofErr ((err_msg "Value cannot be zero" ⟨"main.rs", 3, 5⟩).toDyn))
      ≠ "Value cannot be zero\n" := by
  decide

/-- Claim C4 (amended): wrapping `err_msg("Value cannot be zero")` directly
in a `Terminator` and rendering produces exactly one newline-terminated
line — the error's display string, i.e. the message followed by the
`" (<location>)"` suffix — and no `"Caused by"` lines, since the error has
no cause. -/
theorem terminator_err_msg_one_line (loc : Location) :
    Terminator.fmt (Terminator.ofErr ((err_msg "Value cannot be zero" loc).toDyn))
      = (err_msg "Value cannot be zero" loc).toDyn.display ++ "\n"
    ∧ (err_msg "Value cannot be zero" loc).toDyn.display
        = "Value cannot be zero" ++ " (" ++ loc.display ++ ")"
    ∧ (iter_causes ((err_msg "Value cannot be zero" loc).toDyn)).toList = [] := by
  refine ⟨?_, rfl, rfl⟩
  calc Terminator.fmt (Terminator.ofErr ((err_msg "Value cannot be zero" loc).toDyn))
      = ("" ++ (err_msg "Value cannot be zero" loc).toDyn.display) ++ "\n" := rfl
    _ = (err_msg "Value cannot be zero" loc).toDyn.display ++ "\n" := by
        rw [strEmpty_append]

/-- Claim C10: `find_root_cause` never hits its `expect` branch — the
chain always contains at least the error itself — and the root it returns
is the last chain element, an error whose `source` is `none`. -/
theorem find_root_cause_spec (e : DynError) :
    ∃ r, find_root_cause e = some r ∧ r.source = none
      ∧ e.chainList.getLast? = some r := by
  obtain ⟨r, hr, hs⟩ := e.chainList_getLast
  exact ⟨r, hr, hs, hr⟩

end EasyError
